import Mathlib

/-!
Verification of the PyPSA example-notebook subsystem: multi-horizon
network-to-LP compilation.  The embedding below follows the example
notebooks under `examples/notebooks/` (the discount-weighting loop of
`multi-investment-optimisation.ipynb` is translated verbatim); parts of
the engine that the notebooks only call (asset lifecycle resolution,
constraint builders, the solve orchestrator) are modelled from the
specification, as marked in each doc comment.
-/

namespace PyPSA

/-! ## Asset lifecycle resolution -/

/-- An asset's lifecycle attributes: `buildYear` (`none` means it defaults to
the first investment period) and `lifetime` in years (`none` means
unbounded). -/
structure AssetLife where
  buildYear : Option ℕ
  lifetime : Option ℕ
deriving DecidableEq, Repr

/-- Modelled from the spec: `get_active_assets` / `isActive` is not under
`src/`; the notebooks document that an asset is considered in an investment
period iff `buildYear <= period.startYear < buildYear + lifetime`, with
`lifetime = ∞` when absent and `buildYear` defaulting to the first period
when absent. -/
def isActive (firstPeriod : ℕ) (a : AssetLife) (startYear : ℕ) : Bool :=
  let b := a.buildYear.getD firstPeriod
  decide (b ≤ startYear) &&
    (match a.lifetime with
     | none => true
     | some l => decide (startYear < b + l))

/-! ## Investment period weightings (objective discounting) -/

/-- Per-year discount factor `D(t) = 1/(1+r)^t`, as in the notebook cell that
fills `investment_period_weightings['objective']`. -/
def discount (r : ℚ) (t : ℕ) : ℚ := 1 / (1 + r) ^ t

/-- The notebook loop over `investment_period_weightings.years`: starting from
the cumulative year offset `T = 0`, a period representing `nyears` years gets
objective weight `sum of D(t) for t in range(T, T + nyears)`, after which `T`
advances by `nyears`. -/
def objectiveLoop (r : ℚ) : ℕ → List ℕ → List ℚ
  | _, [] => []
  | T, y :: ys =>
      (Finset.range y).sum (fun j => discount r (T + j)) :: objectiveLoop r (T + y) ys

/-- Objective weights of all investment periods, translated from
`multi-investment-optimisation.ipynb` (running offset starts at `T = 0`). -/
def objectiveWeights (r : ℚ) (nyears : List ℕ) : List ℚ := objectiveLoop r 0 nyears

/-- The notebook derives the years weighting from the period start years as
`list(np.diff(years)) + [10]` (ten years for the final period). -/
def periodLengths : List ℕ → List ℕ
  | [] => []
  | [_] => [10]
  | a :: b :: rest => (b - a) :: periodLengths (b :: rest)

/-! ## Conversion links (multi-output converters) -/

/-- An efficiency declaration: a constant or a per-snapshot series, matching
the overridden Link attribute domain ("static or series"). -/
inductive Efficiency where
  | const : ℚ → Efficiency
  | series : (ℕ → ℚ) → Efficiency

/-- Evaluate an efficiency at a snapshot. -/
def Efficiency.eval : Efficiency → ℕ → ℚ
  | Efficiency.const c, _ => c
  | Efficiency.series f, t => f t

/-- Modelled from the spec: the Link component with one input bus `bus0`,
nominal bounds on the input flow, and an ordered list of output buses
`bus1..busK` each with its per-unit efficiency (the engine's Link flow
derivation is not under `src/`; the biomass notebook registers `bus2`,
`bus3`, `efficiency2`, `efficiency3`, `p2`, `p3` through
`override_component_attrs`). -/
structure ConversionLink where
  bus0 : ℕ
  pNomMin : ℚ
  pNomMax : ℚ
  outputs : List (ℕ × Efficiency)

/-- Modelled from the spec: feasibility of an input-flow series constrains
only `p0`, within the link's nominal bounds. -/
def linkFeasible (l : ConversionLink) (p0 : ℕ → ℚ) : Prop :=
  ∀ t, l.pNomMin ≤ p0 t ∧ p0 t ≤ l.pNomMax

/-- Modelled from the spec: the realized flow on output `k` at snapshot `t`
is derived as `efficiency_k(t) × p0(t)`; an absent output index counts as
efficiency 0. -/
def outputFlow (l : ConversionLink) (p0 : ℕ → ℚ) (k t : ℕ) : ℚ :=
  ((l.outputs.getD k (0, Efficiency.const 0)).2).eval t * p0 t

/-! ## Carbon conservation (closed accounting networks) -/

/-- Sum of the energies of all tracked stores at snapshot `t`. -/
def storeSum {ns : ℕ} (e : Fin ns → ℕ → ℚ) (t : ℕ) : ℚ :=
  Finset.univ.sum (fun s => e s t)

/-- Modelled from the spec: store dynamics of a solved trajectory; between
consecutive snapshots, each link `l` moves `coeff l s × flow l t` units of
carbon into tracked store `s` (negative coefficients withdraw, as for the
`bus0` side of a link or a negative efficiency). -/
def closedDynamics {ns nl : ℕ} (coeff : Fin nl → Fin ns → ℚ)
    (flow : Fin nl → ℕ → ℚ) (e : Fin ns → ℕ → ℚ) : Prop :=
  ∀ s t, e s (t + 1) = e s t + Finset.univ.sum (fun l => coeff l s * flow l t)

/-- The network is closed for carbon accounting: every link's coefficients
over the tracked stores sum to zero, so carbon enters or leaves the system
only via the explicit stores. -/
def carbonClosed {ns nl : ℕ} (coeff : Fin nl → Fin ns → ℚ) : Prop :=
  ∀ l, Finset.univ.sum (fun s => coeff l s) = 0

/-- Carbon coefficients of the ten links of the biomass notebook over the
four tracked stores, indexed as [co2 stored, co2 atmosphere, gas, diesel]:
electrolysis, Fischer-Tropsch, DAC, diesel car, OCGT, OCGT+CCS, biomass0,
biomass1, biomass+CCS0, biomass+CCS1. -/
def notebookCarbonCoeff (l : Fin 10) (s : Fin 4) : ℚ :=
  (([[0, 0, 0, 0],
     [-1, 0, 0, 1],
     [1, -1, 0, 0],
     [0, 1, 0, -1],
     [0, 1, -1, 0],
     [9 / 10, 1 / 10, -1, 0],
     [0, 0, 0, 0],
     [0, 0, 0, 0],
     [1, -1, 0, 0],
     [1, -1, 0, 0]] : List (List ℚ)).getD l.val []).getD s.val 0

/-- A trajectory in which only the Fischer-Tropsch link runs, at unit flow. -/
def ftOnlyFlow : Fin 10 → ℕ → ℚ := fun l _ => if l = 1 then 1 else 0

/-- The store energies induced by `ftOnlyFlow`: the co2 store drains by one
unit per snapshot into the diesel store. -/
def ftOnlyTrajectory (s : Fin 4) (t : ℕ) : ℚ :=
  match s with
  | 0 => 100 - (t : ℚ)
  | 1 => 0
  | 2 => 50
  | 3 => (t : ℚ)

/-! ## Generators, capacity bounds and the capacity constraint builder -/

/-- A generation-type asset: bus and carrier references, whether its nominal
capacity is an (extendable) decision variable, and its fixed nominal
capacity otherwise. -/
structure Generator where
  bus : ℕ
  carrier : ℕ
  extendable : Bool
  pNom : ℚ
deriving DecidableEq, Repr

/-- Declared per-bus-and-carrier nominal-capacity bounds, as introduced by
the `nom_min_{carrier}` / `nom_max_{carrier}` bus columns of the capacity
notebook; an unset bound means unconstrained on that side. -/
structure CapBound where
  bus : ℕ
  carrier : ℕ
  nomMin : Option ℚ
  nomMax : Option ℚ
deriving DecidableEq, Repr

/-- The entity store relevant to capacity aggregation. -/
structure Network where
  generators : List Generator
  capBounds : List CapBound

/-- Realized nominal capacity of the generator at variable index `i`: the
solver value when extendable, the fixed `pNom` otherwise. -/
def realizedNom (sol : ℕ → ℚ) (i : ℕ) (g : Generator) : ℚ :=
  if g.extendable then sol i else g.pNom

/-- Sum of realized nominal capacities of the generators of carrier `c`
attached to bus `b`, with solver variables indexed by list position. -/
def capSum : List Generator → (ℕ → ℚ) → ℕ → ℕ → ℚ
  | [], _, _, _ => 0
  | g :: gs, sol, b, c =>
      (if g.bus = b ∧ g.carrier = c then realizedNom sol 0 g else 0) +
        capSum gs (fun i => sol (i + 1)) b c

/-- A scalar linear constraint over the capacity variables: a coefficient
per generator position, a constant term from fixed capacities, and optional
lower/upper bounds. -/
structure LinCon where
  coeffs : List ℚ
  base : ℚ
  lo : Option ℚ
  hi : Option ℚ

/-- Inner product of a coefficient list with the solution vector. -/
def dotSol : List ℚ → (ℕ → ℚ) → ℚ
  | [], _ => 0
  | c :: cs, sol => c * sol 0 + dotSol cs (fun i => sol (i + 1))

/-- Value of a linear constraint's left-hand side at a solution. -/
def LinCon.eval (con : LinCon) (sol : ℕ → ℚ) : ℚ := con.base + dotSol con.coeffs sol

/-- The constraint is satisfied: the evaluated capacity sum lies within
whichever bounds are declared. -/
def LinCon.sat (con : LinCon) (sol : ℕ → ℚ) : Prop :=
  (∀ m, con.lo = some m → m ≤ con.eval sol) ∧ (∀ m, con.hi = some m → con.eval sol ≤ m)

/-- Modelled from the spec: the CapacityBoundConstraintBuilder is not under
`src/`; for one `(bus, carrier)` bound it emits coefficient 1 for each
matching extendable generator, folds matching fixed capacities into the
constant term, and carries the declared bounds. -/
def buildCapCon (gens : List Generator) (cb : CapBound) : LinCon :=
  { coeffs := gens.map (fun g =>
      if (g.bus = cb.bus ∧ g.carrier = cb.carrier) ∧ g.extendable = true then 1 else 0),
    base := (gens.map (fun g =>
      if (g.bus = cb.bus ∧ g.carrier = cb.carrier) ∧ g.extendable = false then g.pNom
      else 0)).sum,
    lo := cb.nomMin,
    hi := cb.nomMax }

/-- Modelled from the spec: only pairs with at least one declared bound
produce a constraint. -/
def capacityConstraints (n : Network) : List LinCon :=
  (n.capBounds.filter (fun cb => cb.nomMin.isSome || cb.nomMax.isSome)).map
    (buildCapCon n.generators)

/-- The capacity scenario of `src/unnamed/part_000`: two extendable
generators of the same carrier at one bus (two wind generators at
Frankfurt), with combined nominal capacity bounded by [2000, 2200]. -/
def frankfurtNet : Network :=
  { generators :=
      [{ bus := 0, carrier := 0, extendable := true, pNom := 0 },
       { bus := 0, carrier := 0, extendable := true, pNom := 0 }],
    capBounds := [{ bus := 0, carrier := 0, nomMin := some 2000, nomMax := some 2200 }] }

/-- Demand at the scenario bus; it exceeds the 2200 cap, so unconstrained
optimisation would prefer more capacity. -/
def frankfurtDemand : ℚ := 2500

/-- Modelled from the spec: a feasible scenario solution satisfies every
emitted capacity constraint and installs nonnegative capacities. -/
def scenFeasible (sol : ℕ → ℚ) : Prop :=
  (∀ con ∈ capacityConstraints frankfurtNet, con.sat sol) ∧ 0 ≤ sol 0 ∧ 0 ≤ sol 1

/-- Modelled from the spec: the scenario objective is the unserved demand,
strictly improved by every unit of installed capacity below the demand. -/
def scenObjective (sol : ℕ → ℚ) : ℚ := frankfurtDemand - (sol 0 + sol 1)

/-- An optimal scenario solution: feasible and no feasible solution does
better. -/
def scenOptimal (sol : ℕ → ℚ) : Prop :=
  scenFeasible sol ∧ ∀ other, scenFeasible other → scenObjective sol ≤ scenObjective other

/-! ## Solve orchestration -/

/-- Typed outcome statuses of a solve invocation. -/
inductive SolveStatus where
  | optimal
  | infeasibleProgram
  | unboundedProgram
  | solverError
  | timedOut
deriving DecidableEq, Repr

/-- Reply of the opaque external solver: an optimal solution vector, or a
typed failure. -/
inductive SolverReply where
  | optimalSol : (ℕ → ℚ) → SolverReply
  | infeasibleProgram
  | unboundedProgram
  | solverError
  | timedOut

/-- The status carried by a solver reply. -/
def SolverReply.status : SolverReply → SolveStatus
  | SolverReply.optimalSol _ => SolveStatus.optimal
  | SolverReply.infeasibleProgram => SolveStatus.infeasibleProgram
  | SolverReply.unboundedProgram => SolveStatus.unboundedProgram
  | SolverReply.solverError => SolveStatus.solverError
  | SolverReply.timedOut => SolveStatus.timedOut

/-- A network entity together with its result write-back slot (the realized
nominal capacity `p_nom_opt`, absent before a successful solve). -/
structure GenEntity where
  gen : Generator
  pNomOpt : Option ℚ
deriving DecidableEq, Repr

/-- The entity store seen by the solve orchestrator. -/
structure SolveNetwork where
  gens : List GenEntity
deriving DecidableEq, Repr

/-- Writing results back onto the entities: every generator receives the
optimal value of its capacity variable. -/
def writeBack (n : SolveNetwork) (sol : ℕ → ℚ) : SolveNetwork :=
  { gens := n.gens.mapIdx (fun i ge => { gen := ge.gen, pNomOpt := some (sol i) }) }

/-- Modelled from the spec: the SolveOrchestrator is not under `src/`; it
invokes the opaque external solver exactly once and writes results back onto
the entities only when the reply is optimal, returning the typed status. -/
def solveWith (oracle : SolveNetwork → SolverReply) (n : SolveNetwork) :
    SolveStatus × SolveNetwork :=
  match oracle n with
  | SolverReply.optimalSol sol => (SolveStatus.optimal, writeBack n sol)
  | reply => (reply.status, n)

/-! ## Global constraints and weighted aggregation -/

/-- A snapshot of the two-level temporal index: its investment period tag
and its step identifier. -/
structure Snapshot where
  period : ℕ
  step : ℕ
deriving DecidableEq, Repr

/-- The relation of a GlobalConstraint. -/
inductive Sense where
  | le
  | ge
  | eq
deriving DecidableEq, Repr

/-- Meaning of a constraint sense. -/
def Sense.holds (s : Sense) (lhs c : ℚ) : Prop :=
  match s with
  | Sense.le => lhs ≤ c
  | Sense.ge => c ≤ lhs
  | Sense.eq => lhs = c

/-- Per-asset attribute times dispatch, summed over the asset list (asset
variables indexed by list position). -/
def attrDispatch : List ℚ → (ℕ → ℕ → ℚ) → ℕ → ℚ
  | [], _, _ => 0
  | a :: rest, d, t => a * d 0 t + attrDispatch rest (fun i => d (i + 1)) t

/-- Modelled from the spec: the aggregate of a GlobalConstraint over the
horizon: Σ over snapshots of `weight(t) × periodYears(period) × Σ over
assets of carrier attribute × dispatch`. -/
def globalLHS (w py : ℕ → ℚ) (snaps : List Snapshot) (attrs : List ℚ)
    (dispatch : ℕ → ℕ → ℚ) : ℚ :=
  (snaps.map (fun s => w s.step * py s.period * attrDispatch attrs dispatch s.step)).sum

/-- Modelled from the spec: the operating-cost objective term: Σ over
snapshots of `weight(t) × periodYears(period) × Σ over assets of marginal
cost × dispatch`. -/
def operatingCost (w py : ℕ → ℚ) (snaps : List Snapshot) (mcosts : List ℚ)
    (dispatch : ℕ → ℕ → ℚ) : ℚ :=
  (snaps.map (fun s => w s.step * py s.period * attrDispatch mcosts dispatch s.step)).sum

/-- A scalar constraint over the dispatch variables, as emitted by the
GlobalConstraintBuilder. -/
structure ScalarCon where
  lhs : (ℕ → ℕ → ℚ) → ℚ
  sense : Sense
  limit : ℚ

/-- Modelled from the spec: one GlobalConstraint instance produces exactly
one scalar linear constraint, with the snapshot-weight and period-years
weighted aggregate as its left-hand side. -/
def buildGlobalConstraint (sense : Sense) (limit : ℚ) (w py : ℕ → ℚ)
    (snaps : List Snapshot) (attrs : List ℚ) : List ScalarCon :=
  [{ lhs := fun d => globalLHS w py snaps attrs d, sense := sense, limit := limit }]

/-- A dispatch satisfies every emitted scalar constraint. -/
def satisfiesGlobal (cons : List ScalarCon) (d : ℕ → ℕ → ℚ) : Prop :=
  ∀ c ∈ cons, c.sense.holds (c.lhs d) c.limit

/-- Modelled from the spec: the contract of an exact solve — an Optimal
outcome carries a feasible, objective-minimal dispatch; an Infeasible
outcome asserts that no feasible dispatch exists. -/
inductive IdealOutcome {σ : Type} (feasible : σ → Prop) (obj : σ → ℚ) : Option σ → Prop where
  | optimal (s : σ) : feasible s → (∀ s2, feasible s2 → obj s ≤ obj s2) →
      IdealOutcome feasible obj (some s)
  | infeasible : (∀ s, ¬ feasible s) → IdealOutcome feasible obj none

/-! ## Multi-period admission -/

/-- Modelled from the spec: a multi-period solve is admitted only when the
declared investment periods coincide, as a set, with the first-level values
of the snapshot index (the multi-investment notebook: "these have to be the
same as the first level values in the snapshots attribute"). -/
def multiPeriodAdmissible (periods : List ℕ) (snaps : List Snapshot) : Bool :=
  decide (periods.toFinset = (snaps.map Snapshot.period).toFinset)

/-! ## Helper lemmas -/

lemma discount_pos (r : ℚ) (hr : 0 < r) (t : ℕ) : 0 < discount r t := by
  have h1 : (0 : ℚ) < (1 + r) ^ t := pow_pos (by linarith) t
  exact div_pos one_pos h1

lemma discount_strict_anti (r : ℚ) (hr : 0 < r) {s t : ℕ} (h : s < t) :
    discount r t < discount r s := by
  have h1 : (1 : ℚ) < 1 + r := by linarith
  have h2 : (1 + r) ^ s < (1 + r) ^ t := pow_lt_pow_right₀ h1 h
  exact one_div_lt_one_div_of_lt (pow_pos (by linarith) s) h2

/-- One step of the decrease: a later period of at most the same length has a
strictly smaller objective weight. -/
lemma objectiveTerm_step (r : ℚ) (hr : 0 < r) (T y₁ y₂ : ℕ)
    (h1 : 0 < y₁) (h2 : 0 < y₂) (hle : y₂ ≤ y₁) :
    (Finset.range y₂).sum (fun j => discount r (T + y₁ + j)) <
      (Finset.range y₁).sum (fun j => discount r (T + j)) := by
  have step1 : (Finset.range y₂).sum (fun j => discount r (T + y₁ + j)) <
      (Finset.range y₂).sum (fun j => discount r (T + j)) := by
    refine Finset.sum_lt_sum_of_nonempty (Finset.nonempty_range_iff.mpr (by omega)) ?_
    intro j _
    exact discount_strict_anti r hr (by omega)
  have step2 : (Finset.range y₂).sum (fun j => discount r (T + j)) ≤
      (Finset.range y₁).sum (fun j => discount r (T + j)) := by
    refine Finset.sum_le_sum_of_subset_of_nonneg (Finset.range_subset.mpr hle) ?_
    intro j _ _
    exact le_of_lt (discount_pos r hr (T + j))
  exact lt_of_lt_of_le step1 step2

lemma objectiveLoop_chain (r : ℚ) (hr : 0 < r) :
    ∀ (nyears : List ℕ) (T : ℕ), (∀ y ∈ nyears, 0 < y) →
      List.Chain' (fun a b => b ≤ a) nyears →
      List.Chain' (fun a b => b < a) (objectiveLoop r T nyears)
  | [], _, _, _ => List.chain'_nil
  | [y], T, _, _ => List.chain'_singleton _
  | y₁ :: y₂ :: ys, T, hpos, hchain => by
      rw [show objectiveLoop r T (y₁ :: y₂ :: ys) =
        (Finset.range y₁).sum (fun j => discount r (T + j)) ::
          objectiveLoop r (T + y₁) (y₂ :: ys) from rfl]
      rw [show objectiveLoop r (T + y₁) (y₂ :: ys) =
        (Finset.range y₂).sum (fun j => discount r (T + y₁ + j)) ::
          objectiveLoop r (T + y₁ + y₂) ys from rfl]
      rw [List.chain'_cons]
      constructor
      · exact objectiveTerm_step r hr T y₁ y₂ (hpos y₁ (by simp)) (hpos y₂ (by simp))
          (List.chain'_cons.mp hchain).1
      · rw [show (Finset.range y₂).sum (fun j => discount r (T + y₁ + j)) ::
            objectiveLoop r (T + y₁ + y₂) ys = objectiveLoop r (T + y₁) (y₂ :: ys) from rfl]
        exact objectiveLoop_chain r hr (y₂ :: ys) (T + y₁)
          (fun y hy => hpos y (List.mem_cons_of_mem _ hy)) (List.chain'_cons.mp hchain).2

lemma objectiveLoop_length (r : ℚ) : ∀ (T : ℕ) (ys : List ℕ),
    (objectiveLoop r T ys).length = ys.length
  | _, [] => rfl
  | T, y :: ys => by
      rw [show objectiveLoop r T (y :: ys) =
        (Finset.range y).sum (fun j => discount r (T + j)) ::
          objectiveLoop r (T + y) ys from rfl]
      simp [objectiveLoop_length r (T + y) ys]

lemma objectiveLoop_getD (r : ℚ) : ∀ (ys : List ℕ) (T i : ℕ), i < ys.length →
    (objectiveLoop r T ys).getD i 0 =
      (Finset.range (ys.getD i 0)).sum (fun j => discount r (T + (ys.take i).sum + j))
  | [], _, i, hi => by simp at hi
  | y :: ys, T, 0, _ => by
      rw [show objectiveLoop r T (y :: ys) =
        (Finset.range y).sum (fun j => discount r (T + j)) ::
          objectiveLoop r (T + y) ys from rfl]
      simp
  | y :: ys, T, i + 1, hi => by
      rw [show objectiveLoop r T (y :: ys) =
        (Finset.range y).sum (fun j => discount r (T + j)) ::
          objectiveLoop r (T + y) ys from rfl]
      have hi' : i < ys.length := by simpa using hi
      have h := objectiveLoop_getD r ys (T + y) i hi'
      simp only [List.getD_cons_succ, List.take_succ_cons, List.sum_cons]
      rw [h]
      congr 1
      funext j
      congr 1
      omega

lemma periodLengths_pos : ∀ (ys : List ℕ), List.Chain' (fun a b => a < b) ys →
    ∀ y ∈ periodLengths ys, 0 < y
  | [], _, y, hy => by simp [periodLengths] at hy
  | [_], _, y, hy => by simp [periodLengths] at hy; omega
  | a :: b :: rest, hc, y, hy => by
      rw [show periodLengths (a :: b :: rest) =
        (b - a) :: periodLengths (b :: rest) from rfl] at hy
      rcases List.mem_cons.mp hy with h | h
      · have := (List.chain'_cons.mp hc).1
        omega
      · exact periodLengths_pos (b :: rest) (List.chain'_cons.mp hc).2 y h

/-- The emitted constraint's left-hand side evaluates to the aggregate
realized capacity of the matching generators. -/
lemma buildCapCon_eval : ∀ (gens : List Generator) (cb : CapBound) (sol : ℕ → ℚ),
    (buildCapCon gens cb).eval sol = capSum gens sol cb.bus cb.carrier
  | [], cb, sol => by simp [buildCapCon, LinCon.eval, dotSol, capSum]
  | g :: gs, cb, sol => by
      have ih := buildCapCon_eval gs cb (fun i => sol (i + 1))
      simp only [buildCapCon, LinCon.eval, List.map_cons, List.sum_cons, dotSol, capSum] at ih ⊢
      by_cases hmatch : g.bus = cb.bus ∧ g.carrier = cb.carrier
      · cases hext : g.extendable with
        | true => simp [hmatch, hext, realizedNom]; linarith
        | false => simp [hmatch, hext, realizedNom]; linarith
      · simp [hmatch]
        linarith

/-- In the Frankfurt scenario, satisfying the emitted capacity constraints
is exactly bounding the combined installed capacity by [2000, 2200]. -/
lemma frankfurtSat_iff (sol : ℕ → ℚ) :
    (∀ con ∈ capacityConstraints frankfurtNet, con.sat sol) ↔
      2000 ≤ sol 0 + sol 1 ∧ sol 0 + sol 1 ≤ 2200 := by
  constructor
  · intro h
    have hc := h (buildCapCon frankfurtNet.generators
        { bus := 0, carrier := 0, nomMin := some 2000, nomMax := some 2200 })
      (by simp [capacityConstraints, frankfurtNet])
    have h1 := hc.1 2000 rfl
    have h2 := hc.2 2200 rfl
    rw [buildCapCon_eval] at h1 h2
    simp [capSum, frankfurtNet, realizedNom] at h1 h2
    exact ⟨by linarith, by linarith⟩
  · rintro ⟨h1, h2⟩ con hcon
    simp only [capacityConstraints, frankfurtNet, List.filter, List.map,
      List.mem_singleton] at hcon
    subst hcon
    constructor <;> intro m hm <;>
      simp only [buildCapCon, Option.some.injEq] at hm <;>
      subst hm <;>
      rw [buildCapCon_eval] <;>
      simp [capSum, frankfurtNet, realizedNom] <;>
      linarith

lemma scenFeasible_total_le (sol : ℕ → ℚ) (h : scenFeasible sol) :
    sol 0 + sol 1 ≤ 2200 :=
  ((frankfurtSat_iff sol).mp h.1).2

/-- Dropping all snapshots whose snapshot weight or period-years weight is
zero leaves a doubly weighted sum unchanged: the dropped terms are exactly
zero. -/
lemma weightedSum_filter (w py : ℕ → ℚ) (f : Snapshot → ℚ) :
    ∀ snaps : List Snapshot,
      (snaps.map (fun s => w s.step * py s.period * f s)).sum =
        (((snaps.filter (fun s => decide (w s.step ≠ 0) && decide (py s.period ≠ 0))).map
          (fun s => w s.step * py s.period * f s)).sum)
  | [] => rfl
  | s :: rest => by
      rw [List.filter_cons]
      by_cases hw : w s.step = 0
      · simp [hw, weightedSum_filter w py f rest]
      · by_cases hp : py s.period = 0
        · simp [hw, hp, weightedSum_filter w py f rest]
        · simp [hw, hp, weightedSum_filter w py f rest]

/-! ## Claim C1 -/

/-- Claim C1 (amended): for every asset and period start year, `isActive` is
true iff `buildYear ≤ startYear < buildYear + lifetime` (lifetime infinite
when absent, buildYear defaulting to the first period when absent); and for
every asset with bounded buildYear and bounded strictly positive lifetime,
`isActive` holds at the build year and fails at `buildYear + lifetime`.  The
positivity hypothesis is forced: a zero-lifetime asset is never active. -/
theorem isActive_boundary_spec (fp : ℕ) (a : AssetLife) (y : ℕ) :
    (isActive fp a y = true ↔
      (a.buildYear.getD fp ≤ y ∧
        ∀ l, a.lifetime = some l → y < a.buildYear.getD fp + l)) ∧
    (∀ b l, a.buildYear = some b → a.lifetime = some l → 0 < l →
      isActive fp a b = true ∧ isActive fp a (b + l) = false) := by
  constructor
  · cases h : a.lifetime <;> simp [isActive, h]
  · intro b l hb hl hpos
    constructor
    · simp [isActive, hb, hl]; omega
    · simp [isActive, hb, hl]

/-- Claim C1, counterexample: an asset with bounded buildYear 2020 and
bounded lifetime 0 has `isActive(asset, buildYear) = false`, refuting the
claim that `isActive(asset, buildYear)` is true for every asset with
bounded buildYear and lifetime. -/
theorem isActive_buildYear_cex :
    isActive 2020 { buildYear := some 2020, lifetime := some 0 } 2020 = false := by
  decide

/-- Claim C1, witness: the notebook's worked example, buildYear 2029 and
lifetime 30, is active at its build year and inactive at 2059. -/
theorem isActive_boundary_spec_witness :
    isActive 2020 { buildYear := some 2029, lifetime := some 30 } 2029 = true ∧
      isActive 2020 { buildYear := some 2029, lifetime := some 30 } (2029 + 30) = false :=
  (isActive_boundary_spec 2020 { buildYear := some 2029, lifetime := some 30 } 0).2
    2029 30 rfl rfl (by decide)

/-! ## Claim C6 -/

/-- Claim C6 (amended): for a strictly increasing sequence of period start
years whose derived period lengths are non-increasing (as in the notebook,
where every period spans one decade), a strictly positive discount rate makes
the objective weights strictly decreasing across consecutive periods.  The
non-increasing-length hypothesis is forced: a short period followed by
a much longer one can have a smaller weight than its successor. -/
theorem objectiveDiscount_strict_decreasing (r : ℚ) (hr : 0 < r)
    (startYears : List ℕ) (hinc : List.Chain' (fun a b => a < b) startYears)
    (hlen : List.Chain' (fun a b => b ≤ a) (periodLengths startYears)) :
    List.Chain' (fun a b => b < a) (objectiveWeights r (periodLengths startYears)) :=
  objectiveLoop_chain r hr (periodLengths startYears) 0
    (periodLengths_pos startYears hinc) hlen

/-- Claim C6, counterexample: start years 2020 and 2021 are strictly
increasing and the rate 1/10 is positive, yet the first period's objective
weight (one year, weight 1) is strictly smaller than the second period's
(ten years starting at offset 1), so the weights are not strictly
decreasing. -/
theorem objectiveDiscount_strict_decreasing_cex :
    List.Chain' (fun a b => a < b) [2020, 2021] ∧ (0 : ℚ) < 1 / 10 ∧
      (objectiveWeights (1 / 10) (periodLengths [2020, 2021])).getD 0 0 <
        (objectiveWeights (1 / 10) (periodLengths [2020, 2021])).getD 1 0 := by
  refine ⟨by norm_num [List.chain'_cons, List.chain'_singleton], by norm_num, ?_⟩
  show (objectiveWeights (1 / 10) [1, 10]).getD 0 0 <
    (objectiveWeights (1 / 10) [1, 10]).getD 1 0
  norm_num [objectiveWeights, objectiveLoop, discount, Finset.sum_range_succ]

/-- Claim C6, witness: the notebook's decade periods 2020..2050 with rate
1/100 satisfy all hypotheses. -/
theorem objectiveDiscount_strict_decreasing_witness :
    List.Chain' (fun a b => b < a)
      (objectiveWeights (1 / 100) (periodLengths [2020, 2030, 2040, 2050])) :=
  objectiveDiscount_strict_decreasing (1 / 100) (by norm_num)
    [2020, 2030, 2040, 2050]
    (by norm_num [List.chain'_cons, List.chain'_singleton])
    (by norm_num [periodLengths, List.chain'_cons, List.chain'_singleton])

/-! ## Claim C9 -/

/-- Claim C9: the objective weight of period `i` equals the sum of the
per-year discount factors `1/(1+r)^t` for `t` ranging over the years the
period spans, offset by the total years of all earlier periods — not a
single point discount factor. -/
theorem objectiveWeight_eq_yearly_discount_sum (r : ℚ) (hr : 0 < r)
    (nyears : List ℕ) (i : ℕ) (hi : i < nyears.length) :
    (objectiveWeights r nyears).getD i 0 =
      (Finset.range (nyears.getD i 0)).sum
        (fun j => discount r ((nyears.take i).sum + j)) := by
  have h := objectiveLoop_getD r nyears 0 i hi
  simpa using h

/-- Claim C9, witness: periods of 2 and 3 years at rate 1; the second
period's weight is the sum of the yearly discounts of years 2, 3 and 4. -/
theorem objectiveWeight_eq_yearly_discount_sum_witness :
    (objectiveWeights 1 [2, 3]).getD 1 0 =
      (Finset.range (([2, 3] : List ℕ).getD 1 0)).sum
        (fun j => discount 1 ((([2, 3] : List ℕ).take 1).sum + j)) :=
  objectiveWeight_eq_yearly_discount_sum 1 (by norm_num) [2, 3] 1 (by decide)

/-! ## Claim C2 -/

/-- Claim C2: for a conversion link with declared per-output efficiencies
(each a constant or a per-snapshot series, possibly negative) and any
feasible input flow, the realized flow on every declared output `k` equals
`efficiency_k(t) × p0(t)` at every snapshot; and feasibility never
constrains the outputs — replacing the output declarations leaves the
feasible set of input flows unchanged. -/
theorem link_output_flow_spec (l : ConversionLink) (p0 : ℕ → ℚ)
    (h : linkFeasible l p0) (k : ℕ) (hk : k < l.outputs.length) (t : ℕ) :
    outputFlow l p0 k t = (l.outputs.get ⟨k, hk⟩).2.eval t * p0 t ∧
      ∀ outs, linkFeasible { l with outputs := outs } p0 := by
  constructor
  · unfold outputFlow
    rw [List.getD_eq_getElem l.outputs _ hk]
    rfl
  · intro outs
    exact h

/-- Claim C2, witness: the notebook's Fischer-Tropsch link (efficiency 1 to
diesel, efficiency2 = -1 to the co2 store), running at input flow 3 within
its bounds [0, 4], puts -3 on output 2. -/
theorem link_output_flow_spec_witness :
    outputFlow
        { bus0 := 0, pNomMin := 0, pNomMax := 4,
          outputs := [(1, Efficiency.const 1), (2, Efficiency.const (-1))] }
        (fun _ => 3) 1 0 =
      (([(1, Efficiency.const 1), (2, Efficiency.const (-1))] :
          List (ℕ × Efficiency)).get ⟨1, by decide⟩).2.eval 0 * 3 ∧
      ∀ outs, linkFeasible
        { bus0 := 0, pNomMin := 0, pNomMax := 4, outputs := outs } (fun _ => 3) :=
  link_output_flow_spec
    { bus0 := 0, pNomMin := 0, pNomMax := 4,
      outputs := [(1, Efficiency.const 1), (2, Efficiency.const (-1))] }
    (fun _ => 3) (fun _ => ⟨by norm_num, by norm_num⟩) 1 (by decide) 0

/-! ## Claim C4 -/

/-- Claim C4: in a closed carbon-accounting network — every link's carbon
coefficients over the explicit stores sum to zero — the total stored carbon
is the same at every snapshot of the solved trajectory. -/
theorem carbon_store_sum_constant {ns nl : ℕ} (coeff : Fin nl → Fin ns → ℚ)
    (flow : Fin nl → ℕ → ℚ) (e : Fin ns → ℕ → ℚ)
    (hdyn : closedDynamics coeff flow e) (hclosed : carbonClosed coeff) (t : ℕ) :
    storeSum e t = storeSum e 0 := by
  induction t with
  | zero => rfl
  | succ t ih =>
    have hstep : storeSum e (t + 1) = storeSum e t := by
      calc storeSum e (t + 1)
          = Finset.univ.sum
              (fun s => e s t + Finset.univ.sum (fun l => coeff l s * flow l t)) :=
            Finset.sum_congr rfl (fun s _ => hdyn s t)
        _ = storeSum e t +
            Finset.univ.sum (fun s : Fin ns =>
              Finset.univ.sum (fun l : Fin nl => coeff l s * flow l t)) := by
            rw [storeSum, Finset.sum_add_distrib]
        _ = storeSum e t := by
            rw [Finset.sum_comm]
            have hzero : ∀ l : Fin nl,
                Finset.univ.sum (fun s : Fin ns => coeff l s * flow l t) = 0 := by
              intro l
              rw [← Finset.sum_mul, hclosed l, zero_mul]
            simp [hzero]
    rw [hstep, ih]

/-- Claim C4, witness: the biomass notebook's ten links are carbon-closed
over the four tracked stores, and the Fischer-Tropsch-only trajectory keeps
the total carbon at snapshot 5 equal to its initial value. -/
theorem carbon_store_sum_constant_witness :
    storeSum ftOnlyTrajectory 5 = storeSum ftOnlyTrajectory 0 :=
  carbon_store_sum_constant notebookCarbonCoeff ftOnlyFlow ftOnlyTrajectory
    (by
      intro s t
      have hsum : Finset.univ.sum (fun l => notebookCarbonCoeff l s * ftOnlyFlow l t) =
          notebookCarbonCoeff 1 s := by
        simp [ftOnlyFlow, mul_ite, mul_one, mul_zero, Finset.sum_ite_eq']
      rw [hsum]
      fin_cases s <;> simp [ftOnlyTrajectory, notebookCarbonCoeff] <;> push_cast <;> ring)
    (by
      intro l
      fin_cases l <;> rw [Fin.sum_univ_four] <;>
        norm_num [notebookCarbonCoeff, show ((3 : Fin 4) : ℕ) = 3 from rfl])
    5

/-! ## Claim C3 -/

/-- Claim C3: in a solved network — one whose solution satisfies every
emitted capacity constraint — the summed realized nominal capacity of the
generators matching each declared (bus, carrier) bound lies within
[nomMin, nomMax]; and in the scenario with two same-carrier extendable
generators at one bus, combined bound 2200, and demand preferring more
capacity, every optimal solution installs exactly 2200 combined. -/
theorem capacity_bounds_spec (n : Network) (sol : ℕ → ℚ)
    (hsat : ∀ con ∈ capacityConstraints n, con.sat sol)
    (opt : ℕ → ℚ) (hopt : scenOptimal opt) :
    (∀ cb ∈ n.capBounds,
      (∀ m, cb.nomMin = some m → m ≤ capSum n.generators sol cb.bus cb.carrier) ∧
        (∀ m, cb.nomMax = some m → capSum n.generators sol cb.bus cb.carrier ≤ m)) ∧
      opt 0 + opt 1 = 2200 := by
  constructor
  · intro cb hcb
    by_cases hb : (cb.nomMin.isSome || cb.nomMax.isSome) = true
    · have hmem : buildCapCon n.generators cb ∈ capacityConstraints n :=
        List.mem_map_of_mem _ (List.mem_filter.mpr ⟨hcb, hb⟩)
      have h := hsat _ hmem
      refine ⟨fun m hm => ?_, fun m hm => ?_⟩
      · have h1 := h.1 m hm
        rwa [buildCapCon_eval] at h1
      · have h2 := h.2 m hm
        rwa [buildCapCon_eval] at h2
    · have h1 : cb.nomMin = none := by
        cases hmin : cb.nomMin <;> simp [hmin] at hb ⊢
      have h2 : cb.nomMax = none := by
        cases hmax : cb.nomMax <;> simp [hmax] at hb ⊢
      refine ⟨fun m hm => ?_, fun m hm => ?_⟩ <;> simp [h1, h2] at hm
  · obtain ⟨hfeas, hbest⟩ := hopt
    have hle : opt 0 + opt 1 ≤ 2200 := scenFeasible_total_le opt hfeas
    have hstar : scenFeasible (fun i => if i = 0 then 2200 else 0) :=
      ⟨(frankfurtSat_iff _).mpr (by norm_num), by norm_num, by norm_num⟩
    have hobj := hbest _ hstar
    simp only [scenObjective, frankfurtDemand] at hobj
    norm_num at hobj
    linarith

/-- Claim C3, witness: splitting the cap as 1100 + 1100 satisfies the
declared Frankfurt bounds, and installing (2200, 0) is optimal. -/
theorem capacity_bounds_spec_witness :
    (∀ cb ∈ frankfurtNet.capBounds,
      (∀ m, cb.nomMin = some m →
        m ≤ capSum frankfurtNet.generators (fun _ => 1100) cb.bus cb.carrier) ∧
        (∀ m, cb.nomMax = some m →
          capSum frankfurtNet.generators (fun _ => 1100) cb.bus cb.carrier ≤ m)) ∧
      (fun i : ℕ => if i = 0 then (2200 : ℚ) else 0) 0 +
        (fun i : ℕ => if i = 0 then (2200 : ℚ) else 0) 1 = 2200 :=
  capacity_bounds_spec frankfurtNet (fun _ => 1100)
    ((frankfurtSat_iff _).mpr (by norm_num))
    (fun i => if i = 0 then 2200 else 0)
    (by
      refine ⟨⟨(frankfurtSat_iff _).mpr (by norm_num), by norm_num, by norm_num⟩, ?_⟩
      intro other hother
      have h := scenFeasible_total_le other hother
      simp only [scenObjective, frankfurtDemand]
      norm_num
      linarith)

/-! ## Claim C5 -/

/-- Claim C5: a GlobalConstraint over a carrier attribute with any relation
R (≤, ≥ or =) and constant `limit` produces exactly one scalar constraint,
and satisfying it is exactly requiring the snapshot-weight and period-years
weighted aggregate of attribute times dispatch to satisfy R against `limit`;
an Optimal outcome's dispatch satisfies R — in particular aggregate ≤ -50
for the notebook's emission constraint — and the outcome is Infeasible when
no dispatch can satisfy R while meeting the remaining constraints. -/
theorem global_constraint_solve_spec (sense : Sense) (limit : ℚ) (w py : ℕ → ℚ)
    (snaps : List Snapshot) (attrs : List ℚ) (other : (ℕ → ℕ → ℚ) → Prop)
    (obj : (ℕ → ℕ → ℚ) → ℚ) (o : Option (ℕ → ℕ → ℚ))
    (hsolve : IdealOutcome
      (fun d => satisfiesGlobal (buildGlobalConstraint sense limit w py snaps attrs) d ∧
        other d) obj o) :
    (buildGlobalConstraint sense limit w py snaps attrs).length = 1 ∧
      (∀ d, satisfiesGlobal (buildGlobalConstraint sense limit w py snaps attrs) d ↔
        sense.holds (globalLHS w py snaps attrs d) limit) ∧
      (∀ d, o = some d → sense.holds (globalLHS w py snaps attrs d) limit) ∧
      ((∀ d, ¬ (sense.holds (globalLHS w py snaps attrs d) limit ∧ other d)) →
        o = none) := by
  have hiff : ∀ d : ℕ → ℕ → ℚ,
      satisfiesGlobal (buildGlobalConstraint sense limit w py snaps attrs) d ↔
        sense.holds (globalLHS w py snaps attrs d) limit := by
    intro d
    constructor
    · intro h
      exact h _ (List.mem_singleton_self _)
    · intro h c hc
      rw [buildGlobalConstraint, List.mem_singleton] at hc
      subst hc
      exact h
  refine ⟨rfl, hiff, ?_, ?_⟩
  · intro d hsome
    cases hsolve with
    | optimal s hfeas hmin =>
        obtain rfl : s = d := by injection hsome
        exact (hiff _).mp hfeas.1
    | infeasible h => cases hsome
  · intro hnone
    cases hsolve with
    | optimal s hfeas hmin =>
        exact absurd ⟨(hiff s).mp hfeas.1, hfeas.2⟩ (hnone s)
    | infeasible h => rfl

/-- Claim C5, witness: one snapshot, unit weights, one asset with emission
factor -1 dispatching 50 units: the single emitted constraint holds with
aggregate exactly -50, and the outcome Optimal confirms the bound. -/
theorem global_constraint_solve_spec_witness :
    (buildGlobalConstraint Sense.le (-50) (fun _ => 1) (fun _ => 1)
        [{ period := 2020, step := 0 }] [-1]).length = 1 ∧
      (∀ d, satisfiesGlobal (buildGlobalConstraint Sense.le (-50) (fun _ => 1) (fun _ => 1)
          [{ period := 2020, step := 0 }] [-1]) d ↔
        Sense.le.holds
          (globalLHS (fun _ => 1) (fun _ => 1) [{ period := 2020, step := 0 }] [-1] d)
          (-50)) ∧
      (∀ d, (some (fun _ _ => (50 : ℚ)) : Option (ℕ → ℕ → ℚ)) = some d →
        Sense.le.holds
          (globalLHS (fun _ => 1) (fun _ => 1) [{ period := 2020, step := 0 }] [-1] d)
          (-50)) ∧
      ((∀ d, ¬ (Sense.le.holds
          (globalLHS (fun _ => 1) (fun _ => 1) [{ period := 2020, step := 0 }] [-1] d)
          (-50) ∧ True)) →
        (some (fun _ _ => (50 : ℚ)) : Option (ℕ → ℕ → ℚ)) = none) :=
  global_constraint_solve_spec Sense.le (-50) (fun _ => 1) (fun _ => 1)
    [{ period := 2020, step := 0 }] [-1] (fun _ => True) (fun _ => 0)
    (some (fun _ _ => 50))
    (IdealOutcome.optimal _
      (by
        refine ⟨?_, trivial⟩
        intro c hc
        rw [buildGlobalConstraint, List.mem_singleton] at hc
        subst hc
        show globalLHS _ _ _ _ _ ≤ _
        norm_num [globalLHS, attrDispatch])
      (fun s2 _ => le_refl 0))

/-! ## Claim C7 -/

/-- Claim C7: whenever the solver reply is anything but optimal —
infeasible, unbounded, solver error, or timed out — the solve call returns
the network entities exactly as they were: write-back happens only on
success. -/
theorem solve_no_mutation_on_failure (oracle : SolveNetwork → SolverReply)
    (n : SolveNetwork) (h : (solveWith oracle n).1 ≠ SolveStatus.optimal) :
    (solveWith oracle n).2 = n := by
  unfold solveWith at h ⊢
  cases horacle : oracle n <;> rw [horacle] at h <;> simp_all [SolverReply.status]

/-- Claim C7, witness: a solver that reports infeasibility leaves a
one-generator network untouched. -/
theorem solve_no_mutation_on_failure_witness :
    (solveWith (fun _ => SolverReply.infeasibleProgram)
      { gens := [{ gen := { bus := 0, carrier := 0, extendable := true, pNom := 5 },
                   pNomOpt := none }] }).2 =
      { gens := [{ gen := { bus := 0, carrier := 0, extendable := true, pNom := 5 },
                   pNomOpt := none }] } :=
  solve_no_mutation_on_failure (fun _ => SolverReply.infeasibleProgram) _
    (by simp [solveWith, SolverReply.status])

/-! ## Claim C8 -/

/-- Claim C8: the model is total on degenerate weights — a zero-weight
snapshot or zero-length period never divides by its weight — and such
snapshots and periods contribute exactly zero: dropping them changes neither
the global-constraint aggregate nor the operating-cost objective term, and a
zero-length period's objective weight is itself zero, so it contributes no
capital term either. -/
theorem zero_weight_contributes_nothing (w py : ℕ → ℚ) (snaps : List Snapshot)
    (attrs mcosts : List ℚ) (dispatch : ℕ → ℕ → ℚ) (r : ℚ) (nyears : List ℕ)
    (i : ℕ) (hi : i < nyears.length) (hz : nyears.getD i 0 = 0) :
    globalLHS w py snaps attrs dispatch =
        globalLHS w py
          (snaps.filter (fun s => decide (w s.step ≠ 0) && decide (py s.period ≠ 0)))
          attrs dispatch ∧
      operatingCost w py snaps mcosts dispatch =
        operatingCost w py
          (snaps.filter (fun s => decide (w s.step ≠ 0) && decide (py s.period ≠ 0)))
          mcosts dispatch ∧
      (objectiveWeights r nyears).getD i 0 = 0 := by
  refine ⟨weightedSum_filter w py _ snaps, weightedSum_filter w py _ snaps, ?_⟩
  rw [objectiveWeights, objectiveLoop_getD r nyears 0 i hi, hz]
  simp

/-- Claim C8, witness: snapshot 0 has weight zero and the second period has
zero length; both contribute nothing. -/
theorem zero_weight_contributes_nothing_witness :
    globalLHS (fun t => if t = 0 then 0 else 1) (fun _ => 1)
        [{ period := 2020, step := 0 }, { period := 2020, step := 1 }] [2]
        (fun _ _ => 3) =
      globalLHS (fun t => if t = 0 then 0 else 1) (fun _ => 1)
        (([{ period := 2020, step := 0 }, { period := 2020, step := 1 }] :
            List Snapshot).filter
          (fun s => decide ((if s.step = 0 then (0 : ℚ) else 1) ≠ 0) &&
            decide ((1 : ℚ) ≠ 0)))
        [2] (fun _ _ => 3) ∧
      operatingCost (fun t => if t = 0 then 0 else 1) (fun _ => 1)
          [{ period := 2020, step := 0 }, { period := 2020, step := 1 }] [7]
          (fun _ _ => 3) =
        operatingCost (fun t => if t = 0 then 0 else 1) (fun _ => 1)
          (([{ period := 2020, step := 0 }, { period := 2020, step := 1 }] :
              List Snapshot).filter
            (fun s => decide ((if s.step = 0 then (0 : ℚ) else 1) ≠ 0) &&
              decide ((1 : ℚ) ≠ 0)))
          [7] (fun _ _ => 3) ∧
      (objectiveWeights 1 [2, 0]).getD 1 0 = 0 :=
  zero_weight_contributes_nothing (fun t => if t = 0 then 0 else 1) (fun _ => 1)
    [{ period := 2020, step := 0 }, { period := 2020, step := 1 }] [2] [7]
    (fun _ _ => 3) 1 [2, 0] 1 (by decide) rfl

/-! ## Claim C10 -/

/-- Claim C10: whenever a multi-period solve is admitted, the declared
investment periods equal, as a set, the first-level values of the snapshot
index: every snapshot's period tag is declared, and every declared period
tags some snapshot. -/
theorem investment_periods_match_first_level (periods : List ℕ)
    (snaps : List Snapshot) (h : multiPeriodAdmissible periods snaps = true) :
    (∀ s ∈ snaps, s.period ∈ periods) ∧
      (∀ p ∈ periods, ∃ s ∈ snaps, s.period = p) ∧
      periods.toFinset = (snaps.map Snapshot.period).toFinset := by
  have heq : periods.toFinset = (snaps.map Snapshot.period).toFinset := by
    simpa [multiPeriodAdmissible] using h
  refine ⟨?_, ?_, heq⟩
  · intro s hs
    have hmem : s.period ∈ (snaps.map Snapshot.period).toFinset := by
      simp only [List.mem_toFinset, List.mem_map]
      exact ⟨s, hs, rfl⟩
    rw [← heq] at hmem
    simpa using hmem
  · intro p hp
    have hmem : p ∈ (snaps.map Snapshot.period).toFinset := by
      rw [← heq]
      simpa using hp
    simp only [List.mem_toFinset, List.mem_map] at hmem
    obtain ⟨s, hs, hsp⟩ := hmem
    exact ⟨s, hs, hsp⟩

/-- Claim C10, witness: periods 2020 and 2030 with snapshots tagged by both
periods are admitted, and the set equality holds. -/
theorem investment_periods_match_first_level_witness :
    (∀ s ∈ ([{ period := 2020, step := 0 }, { period := 2030, step := 0 },
        { period := 2020, step := 1 }] : List Snapshot), s.period ∈ [2020, 2030]) ∧
      (∀ p ∈ [2020, 2030], ∃ s ∈ ([{ period := 2020, step := 0 },
          { period := 2030, step := 0 }, { period := 2020, step := 1 }] : List Snapshot),
        s.period = p) ∧
      ([2020, 2030] : List ℕ).toFinset =
        (([{ period := 2020, step := 0 }, { period := 2030, step := 0 },
          { period := 2020, step := 1 }] : List Snapshot).map Snapshot.period).toFinset :=
  investment_periods_match_first_level [2020, 2030]
    [{ period := 2020, step := 0 }, { period := 2030, step := 0 },
      { period := 2020, step := 1 }]
    (by decide)

end PyPSA
